import Mathlib

/-!
Shallow embedding of the client-side feed synchronization and voting engine of
the aiClubGallery repository (`src/pages/index.tsx` and `src/pages/admin.tsx`).

The backend `images` table is modelled as a `List Image`; a Supabase query
`select('*').eq('hidden', false).order('created_at', descending).limit(5)`
with an optional `.lt('created_at', t)` filter is modelled by sorting the
table descending by creation timestamp, filtering, and taking 5 (SQL applies
WHERE before ORDER BY, but filtering commutes with sorting up to order of
ties, and the pagination results proved below assume distinct timestamps as
the spec's "monotonically assigned" timestamps guarantee).  Timestamps are
modelled as `Nat`; React state updates become explicit state passing; each
`async` handler is modelled as one atomic state transition (success path and
failure path as two separate functions, since the I/O outcome is external).
-/

/-- A row of the backend `images` table: the `Image` interface of
`src/pages/index.tsx` plus the `hidden` column used by the query and by
`src/pages/admin.tsx`.  `file_path`/`youtube_link` are nullable strings and
`created_at` is the backend-assigned creation timestamp, modelled as `Nat`. -/
structure Image where
  id : Nat
  title : String
  description : String
  artist : String
  artist_name : String
  file_path : Option String
  youtube_link : Option String
  stars : Nat
  num_votes : Nat
  created_at : Nat
  hidden : Bool
deriving DecidableEq, Repr

/-- The `formData` React state of `src/pages/index.tsx` line 27. -/
structure FormData where
  title : String
  description : String
  artist : String
  artistName : String
  youtubeLink : String
deriving DecidableEq, Repr

/-- The initial `formData` value (also what `handleSubmit` resets it to). -/
def emptyForm : FormData :=
  { title := "", description := "", artist := "", artistName := "", youtubeLink := "" }

/-- The client state of the Home component of `src/pages/index.tsx`, together
with the backend `images` table (`db`) so that the handlers' network effects
can be modelled.  `file` is the selected upload file, reduced to its name
(only presence and name matter to the core logic); `userVotes` is the vote
ledger, the list of entry ids mapped to `true` (the code only ever stores
`true` under a key). -/
structure AppState where
  db : List Image
  images : List Image
  showForm : Bool
  formData : FormData
  file : Option String
  error : Option String
  loading : Bool
  hasMore : Bool
  lastFetchedAt : Option Nat
  userVotes : List Nat
deriving DecidableEq, Repr

/-- Descending order on creation timestamps: `a` comes before `b` when
`b.created_at ≤ a.created_at` (models `order('created_at', { ascending: false })`). -/
def byNewest (a b : Image) : Prop := b.created_at ≤ a.created_at

instance : DecidableRel byNewest := fun a b => Nat.decLe b.created_at a.created_at

/-- The backend's view produced by
`from('images').select('*').eq('hidden', false).order('created_at', { ascending: false })`:
the table sorted descending by creation timestamp, restricted to rows with
`hidden = false`. -/
def visibleSorted (db : List Image) : List Image :=
  (List.insertionSort byNewest db).filter (fun i => i.hidden == false)

/-- The optional `.lt('created_at', lastFetchedAt)` filter of
`src/pages/index.tsx` line 52. -/
def cursorPred (cursor : Option Nat) (i : Image) : Bool :=
  match cursor with
  | none => true
  | some t => decide (i.created_at < t)

/-- The full page query issued by `fetchImages` (`src/pages/index.tsx`
line 51-53): visible rows newest first, strictly older than the cursor when
one is set, limited to the page size 5. -/
def runQuery (db : List Image) (cursor : Option Nat) : List Image :=
  ((visibleSorted db).filter (cursorPred cursor)).take 5

/-- `fetchImages` of `src/pages/index.tsx` lines 47-68, success path (the
query resolves).  Guard: `if (!hasMore || loading) return`.  On empty data it
sets `hasMore := false`; otherwise it appends the page to `images` and
advances `lastFetchedAt` to the last (oldest) item's timestamp.  `loading` is
toggled around the await and is back to `false` when the call completes, so
the atomic model leaves it as it was (the guard ensures it was `false`). -/
def fetchImages (s : AppState) : AppState :=
  if !s.hasMore || s.loading then s
  else
    match runQuery s.db s.lastFetchedAt with
    | [] => { s with hasMore := false }
    | d :: ds =>
      { s with images := s.images ++ d :: ds,
               lastFetchedAt := ((d :: ds).getLast?).map Image.created_at }

/-- `fetchImages`, failure path (the query rejects, `src/pages/index.tsx`
lines 62-67): the catch block only sets the error message; feed, cursor and
`hasMore` are untouched. -/
def fetchImagesFail (s : AppState) : AppState :=
  if !s.hasMore || s.loading then s
  else { s with error := some "Failed to fetch images. Please try again later." }

/-- `k` successive successful `fetchImages` calls (each starting after the
previous one resolved). -/
def fetchN : Nat → AppState → AppState
  | 0, s => s
  | k + 1, s => fetchImages (fetchN k s)

/-- `handleRate` of `src/pages/index.tsx` lines 123-144, success path.
Guard 1: `if (userVotes[id]) return` (vote-ledger idempotency).
Guard 2: `if (!image) return` when the id is not in the in-memory feed.
Otherwise the backend row is updated to the feed copy's counts plus one
(last-write-wins), the feed copy is bumped, and the id is recorded in the
ledger. -/
def handleRate (s : AppState) (id : Nat) : AppState :=
  if id ∈ s.userVotes then s
  else
    match s.images.find? (fun img => img.id == id) with
    | none => s
    | some image =>
      { s with
        db := s.db.map (fun img =>
          if img.id == id then
            { img with stars := image.stars + 1, num_votes := image.num_votes + 1 }
          else img),
        images := s.images.map (fun img =>
          if img.id == id then
            { img with stars := img.stars + 1, num_votes := img.num_votes + 1 }
          else img),
        userVotes := id :: s.userVotes }

/-- `handleRate`, failure path (the update rejects, `src/pages/index.tsx`
lines 140-143): the guards run as usual; when they pass, the throw happens
before the optimistic feed update and before the ledger write, so only the
error message is set. -/
def handleRateFail (s : AppState) (id : Nat) : AppState :=
  if id ∈ s.userVotes then s
  else
    match s.images.find? (fun img => img.id == id) with
    | none => s
    | some _ => { s with error := some "Failed to update rating. Please try again." }

/-- The row payload of the insert in `handleSubmit`
(`src/pages/index.tsx` lines 100-103). -/
structure InsertRow where
  title : String
  description : String
  artist : String
  artist_name : String
  file_path : Option String
  youtube_link : Option String
  stars : Nat
  num_votes : Nat
  hidden : Bool
deriving DecidableEq, Repr

/-- The backend's insert capability: it assigns the new row an id and a
creation timestamp. -/
def rowToImage (r : InsertRow) (newId newTs : Nat) : Image :=
  { id := newId, title := r.title, description := r.description,
    artist := r.artist, artist_name := r.artist_name,
    file_path := r.file_path, youtube_link := r.youtube_link,
    stars := r.stars, num_votes := r.num_votes,
    created_at := newTs, hidden := r.hidden }

/-- Result of `handleSubmit`: either validation failed before any network
call (the state only gains the error message), or the row was uploaded and
inserted and the state was reset and refetched. -/
inductive SubmitResult where
  | validationError (s : AppState) : SubmitResult
  | inserted (row : InsertRow) (s : AppState) : SubmitResult
deriving DecidableEq, Repr

/-- Whether a `SubmitResult` is a validation failure. -/
def SubmitResult.isValidationError : SubmitResult → Bool
  | .validationError _ => true
  | .inserted _ _ => false

/-- The state a `SubmitResult` leaves the client in. -/
def SubmitResult.state : SubmitResult → AppState
  | .validationError s => s
  | .inserted _ s => s

/-- The path produced by the storage upload step of `handleSubmit`
(`src/pages/index.tsx` lines 90-96): only attempted when a file is present;
the code keeps `data?.path || null`, so an empty returned path counts as
null by JS truthiness. -/
def uploadResult (file : Option String) (uploadedPath : String) : Option String :=
  if file.isSome then (if uploadedPath == "" then none else some uploadedPath) else none

/-- The `file_path` value inserted by `handleSubmit`
(`src/pages/index.tsx` lines 97-99): when no upload path resulted and a
YouTube link was given, the explicit empty-string marker is used. -/
def submitFilePath (file : Option String) (uploadedPath youtubeLink : String) : Option String :=
  if (uploadResult file uploadedPath).isNone && youtubeLink != "" then some ""
  else uploadResult file uploadedPath

/-- The row inserted by `handleSubmit` (`src/pages/index.tsx` lines 100-103). -/
def submitRow (uploadedPath : String) (s : AppState) : InsertRow :=
  { title := s.formData.title, description := s.formData.description,
    artist := s.formData.artist, artist_name := s.formData.artistName,
    file_path := submitFilePath s.file uploadedPath s.formData.youtubeLink,
    youtube_link := if s.formData.youtubeLink == "" then none
                    else some s.formData.youtubeLink,
    stars := 0, num_votes := 0, hidden := false }

/-- The state right after a successful insert in `handleSubmit`
(`src/pages/index.tsx` lines 106-113): row appended to the backend table
(with backend-assigned id and timestamp), draft and file cleared, form
closed, feed cleared, cursor reset. -/
def submitReset (row : InsertRow) (newId newTs : Nat) (s : AppState) : AppState :=
  { s with db := s.db ++ [rowToImage row newId newTs],
           error := none,
           formData := emptyForm, file := none, showForm := false,
           images := [], lastFetchedAt := none, hasMore := true }

/-- The post-submit refetch of `src/pages/index.tsx` line 114.  The
`fetchImages` value awaited there is the `useCallback` closure built in the
render that created `handleSubmit`, so its guard (line 48) and its cursor
filter (line 52) read the PRE-reset `hasMore`, `loading` and `lastFetchedAt`
captured in `stale`, while its state updates (`setImages(prev => ...)`,
`setLastFetchedAt`, `setHasMore`) land on the freshly reset state `s` (the
`flushSync` at lines 109-113 has already committed the reset).  The backend
table is shared, not captured, so the query runs over `s.db`. -/
def fetchImagesStale (stale : AppState) (s : AppState) : AppState :=
  if !stale.hasMore || stale.loading then s
  else
    match runQuery s.db stale.lastFetchedAt with
    | [] => { s with hasMore := false }
    | d :: ds =>
      { s with images := s.images ++ d :: ds,
               lastFetchedAt := ((d :: ds).getLast?).map Image.created_at }

/-- `handleSubmit` of `src/pages/index.tsx` lines 79-121, success path of the
network operations.  `uploadedPath` is the path returned by the storage
upload when a file is present; `newId`/`newTs` are assigned by the insert
capability.  Validation (line 84): all four text fields non-empty and at
least one of file/YouTube link present — note the code does NOT reject the
case where both are present.  On success the state is reset and the STALE
`fetchImages` closure runs again (line 114): its guard and cursor still see
the pre-submit `hasMore`/`loading`/`lastFetchedAt` (see `fetchImagesStale`). -/
def handleSubmit (uploadedPath : String) (newId newTs : Nat) (s : AppState) : SubmitResult :=
  if (s.file.isNone && s.formData.youtubeLink == "") || s.formData.title == ""
      || s.formData.description == "" || s.formData.artist == ""
      || s.formData.artistName == "" then
    .validationError { s with error := some "All fields are required. Please provide either a file or a YouTube link." }
  else
    .inserted (submitRow uploadedPath s)
      (fetchImagesStale s (submitReset (submitRow uploadedPath s) newId newTs s))

/-- `handleToggleHidden` of `src/pages/admin.tsx` lines 75-89, effect on the
backend table: `update({ hidden: !currentHiddenState }).eq('id', id)` flips
only the hidden flag of the rows matching the id. -/
def dbToggleHidden (db : List Image) (id : Nat) (currentHiddenState : Bool) : List Image :=
  db.map (fun img => if img.id == id then { img with hidden := !currentHiddenState } else img)

/-- One core-driven operation, for stating properties over arbitrary
operation sequences: a page fetch (resolving or rejecting), a vote
(resolving or rejecting), a submission, or an admin hidden toggle. -/
inductive Op where
  | fetch : Op
  | fetchFail : Op
  | rate (id : Nat) : Op
  | rateFail (id : Nat) : Op
  | submit (uploadedPath : String) (newId newTs : Nat) : Op
  | toggleHidden (id : Nat) (currentHiddenState : Bool) : Op

/-- Apply one operation to the client-plus-backend state. -/
def applyOp : Op → AppState → AppState
  | .fetch, s => fetchImages s
  | .fetchFail, s => fetchImagesFail s
  | .rate id, s => handleRate s id
  | .rateFail id, s => handleRateFail s id
  | .submit up nid nts, s => (handleSubmit up nid nts s).state
  | .toggleHidden id cur, s => { s with db := dbToggleHidden s.db id cur }

/-- Apply a sequence of operations, first element first. -/
def applyOps : List Op → AppState → AppState
  | [], s => s
  | op :: ops, s => applyOps ops (applyOp op s)

/-- The component's state on mount (`useState` initial values of
`src/pages/index.tsx` lines 25-34, with an empty vote ledger), over a given
backend table. -/
def initState (db : List Image) : AppState :=
  { db := db, images := [], showForm := false, formData := emptyForm,
    file := none, error := none, loading := false, hasMore := true,
    lastFetchedAt := none, userVotes := [] }

/-- The in-memory pagination cursor described as `data[data.length - 1].created_at`
after `n` items of a list have been loaded: the creation timestamp of the
last (oldest) loaded item, or `none` when nothing has been loaded. -/
def lastTs (l : List Image) (n : Nat) : Option Nat :=
  ((l.take n).getLast?).map Image.created_at

/-- Boolean test that a list of images is strictly descending in creation
timestamp (no two entries share a timestamp); the spec's data model
guarantees this for the backend table, since creation timestamps are
monotonically assigned by the backing store. -/
def strictDesc : List Image → Bool
  | [] => true
  | [_] => true
  | a :: b :: rest => decide (b.created_at < a.created_at) && strictDesc (b :: rest)

/-- The client state after `n` entries of the visible feed have been loaded
from the backend table `db`, with `hasMore` flag `hm`: the spec-side
description of the Feed Fetcher's reachable states. -/
def pagesState (db : List Image) (n : Nat) (hm : Bool) : AppState :=
  { initState db with
      images := (visibleSorted db).take n,
      lastFetchedAt := lastTs (visibleSorted db) n,
      hasMore := hm }

/-- Erase the hidden flag of an entry, for stating that an operation changes
nothing but the hidden flag. -/
def stripHidden (i : Image) : Image := { i with hidden := false }

/-- The core's counter invariant: every entry of the backend table and of
the in-memory feed has equal star and vote counts. -/
def CountsEq (s : AppState) : Prop :=
  (∀ img ∈ s.db, img.stars = img.num_votes) ∧
  (∀ img ∈ s.images, img.stars = img.num_votes)

/-- A concrete gallery entry for instantiating the theorems. -/
def exhibit (id ts : Nat) (hid : Bool) : Image :=
  { id := id, title := "t", description := "d", artist := "a@b",
    artist_name := "nm", file_path := some "f.png", youtube_link := none,
    stars := 0, num_votes := 0, created_at := ts, hidden := hid }

/-- A concrete backend table with 7 visible entries (the spec's running
example: page size 5, 7 visible entries) and one hidden entry. -/
def exampleDb : List Image :=
  [exhibit 1 10 false, exhibit 2 20 false, exhibit 3 30 false,
   exhibit 4 40 false, exhibit 5 50 false, exhibit 6 60 false,
   exhibit 7 70 false, exhibit 8 45 true]

/-- A concrete client state with one loaded entry, for instantiating the
voting theorems. -/
def voteState : AppState :=
  { initState exampleDb with images := [exhibit 1 10 false] }

/-- A concrete draft with all text fields filled and both a file and a
YouTube link present. -/
def bothDraft : AppState :=
  { initState [] with
    formData := { title := "t", description := "d", artist := "a@b",
                  artistName := "nm", youtubeLink := "https://yt/v=1" },
    file := some "clip.png" }

/-- A concrete video-only draft (all text fields filled, no file) entered by
a client that has already loaded the first page of `exampleDb`, so its
pre-submit cursor sits at timestamp 30 and `hasMore` is still true. -/
def pagedDraft : AppState :=
  { fetchN 1 (initState exampleDb) with
    formData := { title := "t", description := "d", artist := "a@b",
                  artistName := "nm", youtubeLink := "https://yt/v=1" } }

/-- The same video-only draft entered by a client whose feed was already
exhausted (three pages loaded, `hasMore = false`). -/
def exhaustedDraft : AppState :=
  { fetchN 3 (initState exampleDb) with
    formData := { title := "t", description := "d", artist := "a@b",
                  artistName := "nm", youtubeLink := "https://yt/v=1" } }

/-! ### Frame helper lemmas -/

theorem fetchImages_guard {s : AppState} (h : (!s.hasMore || s.loading) = true) :
    fetchImages s = s := by
  unfold fetchImages
  rw [if_pos h]

theorem fetchImages_db (s : AppState) : (fetchImages s).db = s.db := by
  unfold fetchImages
  split
  · rfl
  · split <;> rfl

theorem fetchImages_userVotes (s : AppState) : (fetchImages s).userVotes = s.userVotes := by
  unfold fetchImages
  split
  · rfl
  · split <;> rfl

theorem fetchImages_loading (s : AppState) : (fetchImages s).loading = s.loading := by
  unfold fetchImages
  split
  · rfl
  · split <;> rfl

theorem fetchImagesFail_frame (s : AppState) :
    (fetchImagesFail s).images = s.images ∧
      (fetchImagesFail s).lastFetchedAt = s.lastFetchedAt ∧
      (fetchImagesFail s).hasMore = s.hasMore ∧
      (fetchImagesFail s).db = s.db ∧
      (fetchImagesFail s).userVotes = s.userVotes := by
  unfold fetchImagesFail
  split <;> exact ⟨rfl, rfl, rfl, rfl, rfl⟩

theorem fetchImagesFail_error (s : AppState) (h1 : s.hasMore = true) (h2 : s.loading = false) :
    (fetchImagesFail s).error = some "Failed to fetch images. Please try again later." := by
  unfold fetchImagesFail
  rw [if_neg (by simp [h1, h2])]

theorem handleRateFail_frame (s : AppState) (id : Nat) :
    (handleRateFail s id).images = s.images ∧
      (handleRateFail s id).db = s.db ∧
      (handleRateFail s id).userVotes = s.userVotes ∧
      (handleRateFail s id).lastFetchedAt = s.lastFetchedAt := by
  unfold handleRateFail
  split
  · exact ⟨rfl, rfl, rfl, rfl⟩
  · split <;> exact ⟨rfl, rfl, rfl, rfl⟩

theorem handleRateFail_error (s : AppState) (id : Nat) (img : Image)
    (h1 : id ∉ s.userVotes)
    (h2 : s.images.find? (fun i => i.id == id) = some img) :
    (handleRateFail s id).error = some "Failed to update rating. Please try again." := by
  unfold handleRateFail
  rw [if_neg h1, h2]

/-- Finding an entry by id in the optimistically bumped feed finds the
bumped copy of the entry found in the original feed. -/
theorem find?_bump (l : List Image) (id : Nat) :
    (l.map (fun img =>
        if img.id == id then
          { img with stars := img.stars + 1, num_votes := img.num_votes + 1 }
        else img)).find? (fun img => img.id == id)
      = (l.find? (fun img => img.id == id)).map (fun img =>
          { img with stars := img.stars + 1, num_votes := img.num_votes + 1 }) := by
  induction l with
  | nil => rfl
  | cons a l ih =>
    cases hab : a.id == id with
    | true =>
      have ha : a.id = id := beq_iff_eq.mp hab
      subst ha
      simp [List.find?_cons]
    | false =>
      simp only [List.map_cons, List.find?_cons, hab, Bool.false_eq_true, if_false]
      exact ih

/-! ### Claim theorems -/

/-- C8: `loadNextPage()` called while a fetch is already in flight (the
`loading` flag is set) or while the cursor is exhausted (`hasMore = false`)
is a no-op: the call is ignored rather than queued, and the feed, cursor and
exhaustion state are all unchanged. -/
theorem fetch_noop_when_busy_or_exhausted (s : AppState)
    (h : s.loading = true ∨ s.hasMore = false) : fetchImages s = s := by
  apply fetchImages_guard
  rcases h with h | h <;> simp [h]

theorem fetch_noop_when_busy_or_exhausted_witness :
    fetchImages { initState exampleDb with loading := true }
      = { initState exampleDb with loading := true } :=
  fetch_noop_when_busy_or_exhausted _ (Or.inl rfl)

/-- C10: `vote(entryId)` for an id that is not marked voted in the ledger but
is also not present in the in-memory feed is a silent no-op: no backend
update is issued, no error is surfaced, and neither the feed nor the ledger
(nor anything else in the state) changes. -/
theorem vote_unknown_entry_noop (s : AppState) (id : Nat)
    (h1 : id ∉ s.userVotes)
    (h2 : s.images.find? (fun img => img.id == id) = none) :
    handleRate s id = s := by
  unfold handleRate
  rw [if_neg h1, h2]

theorem vote_unknown_entry_noop_witness :
    handleRate (initState exampleDb) 3 = initState exampleDb :=
  vote_unknown_entry_noop (initState exampleDb) 3 (by decide) (by decide)

/-- C4: I/O failures leave all visible state unchanged.  A query failure
during `loadNextPage()` keeps the feed, the cursor, the exhaustion flag, the
backend table and the ledger exactly as before and surfaces a recoverable
error message (when the call was not already a guard no-op); an update
failure during `vote()` keeps the feed, the backend table, the ledger and
the cursor unchanged — the vote is not recorded, so a retry is legitimate —
and surfaces a recoverable error message (when the guards passed). -/
theorem io_failure_no_partial_effect (s : AppState) (id : Nat) :
    (fetchImagesFail s).images = s.images ∧
    (fetchImagesFail s).lastFetchedAt = s.lastFetchedAt ∧
    (fetchImagesFail s).hasMore = s.hasMore ∧
    (fetchImagesFail s).db = s.db ∧
    (fetchImagesFail s).userVotes = s.userVotes ∧
    (s.hasMore = true → s.loading = false →
      (fetchImagesFail s).error = some "Failed to fetch images. Please try again later.") ∧
    (handleRateFail s id).images = s.images ∧
    (handleRateFail s id).db = s.db ∧
    (handleRateFail s id).userVotes = s.userVotes ∧
    (handleRateFail s id).lastFetchedAt = s.lastFetchedAt ∧
    (∀ img, id ∉ s.userVotes →
      s.images.find? (fun i => i.id == id) = some img →
      (handleRateFail s id).error = some "Failed to update rating. Please try again.") := by
  obtain ⟨f1, f2, f3, f4, f5⟩ := fetchImagesFail_frame s
  obtain ⟨r1, r2, r3, r4⟩ := handleRateFail_frame s id
  exact ⟨f1, f2, f3, f4, f5, fun h1 h2 => fetchImagesFail_error s h1 h2,
    r1, r2, r3, r4, fun img h1 h2 => handleRateFail_error s id img h1 h2⟩

theorem io_failure_no_partial_effect_witness :
    (fetchImagesFail (initState exampleDb)).error
        = some "Failed to fetch images. Please try again later." ∧
      (handleRateFail voteState 1).error
        = some "Failed to update rating. Please try again." :=
  ⟨(io_failure_no_partial_effect (initState exampleDb) 1).2.2.2.2.2.1 rfl rfl,
   (io_failure_no_partial_effect voteState 1).2.2.2.2.2.2.2.2.2.2
     (exhibit 1 10 false) (by decide) (by decide)⟩

/-- C3: `vote(entryId)` is idempotent per browser.  If the vote ledger
already marks the id as voted, the call is a no-op without error; hence two
sequential calls (the second starting after the first fully resolved)
produce the same state as one, and change the entry's star and vote counts
by exactly 1 in total, not 2. -/
theorem vote_idempotent (s : AppState) (id : Nat) :
    (id ∈ s.userVotes → handleRate s id = s) ∧
    handleRate (handleRate s id) id = handleRate s id ∧
    (∀ img, id ∉ s.userVotes →
      s.images.find? (fun i => i.id == id) = some img →
      (handleRate (handleRate s id) id).images.find? (fun i => i.id == id)
        = some { img with stars := img.stars + 1, num_votes := img.num_votes + 1 }) := by
  have hvoted : ∀ t : AppState, id ∈ t.userVotes → handleRate t id = t := by
    intro t ht
    unfold handleRate
    rw [if_pos ht]
  have hidem : handleRate (handleRate s id) id = handleRate s id := by
    by_cases hm : id ∈ s.userVotes
    · rw [hvoted s hm, hvoted s hm]
    · unfold handleRate
      rw [if_neg hm]
      cases hfind : s.images.find? (fun img => img.id == id) with
      | none => rw [if_neg hm, hfind]
      | some img =>
        rw [if_pos]
        exact List.mem_cons_self id s.userVotes
  refine ⟨hvoted s, hidem, ?_⟩
  intro img hm hfind
  rw [hidem]
  unfold handleRate
  rw [if_neg hm, hfind]
  simp only [find?_bump, hfind]
  rfl

theorem vote_idempotent_witness :
    (handleRate (handleRate voteState 1) 1).images.find? (fun i => i.id == 1)
      = some { exhibit 1 10 false with stars := 1, num_votes := 1 } :=
  (vote_idempotent voteState 1).2.2 (exhibit 1 10 false) (by decide) (by decide)

/-- C2 counterexample: a draft with all four text fields non-empty and BOTH
a file and a YouTube link present passes the validation check of
`handleSubmit` (the code only rejects the case where neither is present), so
the claimed `ValidationError` on "both provided" does not occur and the
network operations proceed. -/
theorem submit_both_not_rejected :
    (handleSubmit "stored.png" 9 99 bothDraft).isValidationError = false := by
  decide

/-- C2 amended: `submit(entryDraft)` fails with a `ValidationError` and makes
no network call exactly when some of title, description, submitter contact
and submitter display name is empty, or neither a file nor a video reference
is provided; "both provided" is NOT rejected (the code checks only
`!file && !youtubeLink`).  When validation fails, the state is left
untouched except for the user-facing error message. -/
theorem submit_validation (up : String) (nid nts : Nat) (s : AppState) :
    ((handleSubmit up nid nts s).isValidationError = true ↔
      ((s.file = none ∧ s.formData.youtubeLink = "") ∨ s.formData.title = ""
        ∨ s.formData.description = "" ∨ s.formData.artist = ""
        ∨ s.formData.artistName = "")) ∧
    ((handleSubmit up nid nts s).isValidationError = true →
      handleSubmit up nid nts s = .validationError
        { s with error := some "All fields are required. Please provide either a file or a YouTube link." }) := by
  unfold handleSubmit
  by_cases h : ((s.file.isNone && s.formData.youtubeLink == "")
      || s.formData.title == "" || s.formData.description == ""
      || s.formData.artist == "" || s.formData.artistName == "") = true
  · rw [if_pos h]
    constructor
    · simp only [SubmitResult.isValidationError, true_iff]
      simp only [Bool.or_eq_true, Bool.and_eq_true, beq_iff_eq,
        Option.isNone_iff_eq_none] at h
      tauto
    · intro _
      rfl
  · rw [if_neg h]
    constructor
    · simp only [SubmitResult.isValidationError, false_iff]
      simp only [Bool.or_eq_true, Bool.and_eq_true, beq_iff_eq,
        Option.isNone_iff_eq_none] at h
      tauto
    · intro hc
      exact absurd hc (by simp [SubmitResult.isValidationError])

theorem submit_validation_witness :
    handleSubmit "" 0 0 (initState []) = .validationError
      { initState [] with
          error := some "All fields are required. Please provide either a file or a YouTube link." } :=
  (submit_validation "" 0 0 (initState [])).2 (by decide)

/-- C6: the code violates the claim's final conjunct.  On a successful
submit the row IS persisted with star and vote counts 0, `hidden = false`
and the explicit empty-string asset marker for a video submission, and the
draft is cleared, the form closed, the feed cleared and the cursor reset —
but the `loadNextPage()` triggered afterwards is NOT fresh: line 114 of
`src/pages/index.tsx` awaits the `fetchImages` closure whose `useCallback`
dependencies (`hasMore`, `loading`, `lastFetchedAt`) were captured before
the reset.  Evaluated at a client that had loaded one page of `exampleDb`
(cursor at timestamp 30): the refetch filters on the stale cursor and the
feed comes back as the entries below it (ids 2 and 1), so the new entry
(id 9, the newest) is absent instead of at the top.  Evaluated at a client
whose feed was already exhausted: the stale `hasMore = false` guard makes
the refetch a complete no-op, leaving the cleared feed empty. -/
theorem submit_refetch_stale :
    (submitRow "" pagedDraft).stars = 0 ∧
      (submitRow "" pagedDraft).num_votes = 0 ∧
      (submitRow "" pagedDraft).hidden = false ∧
      (submitRow "" pagedDraft).file_path = some "" ∧
      (handleSubmit "" 9 99 pagedDraft).state.db
          = pagedDraft.db ++ [rowToImage (submitRow "" pagedDraft) 9 99] ∧
      (handleSubmit "" 9 99 pagedDraft).state.formData = emptyForm ∧
      (handleSubmit "" 9 99 pagedDraft).state.file = none ∧
      (handleSubmit "" 9 99 pagedDraft).state.showForm = false ∧
      (handleSubmit "" 9 99 pagedDraft).state.images.map Image.id = [2, 1] ∧
      9 ∉ (handleSubmit "" 9 99 pagedDraft).state.images.map Image.id ∧
      (handleSubmit "" 9 99 exhaustedDraft).state.images = [] := by
  decide

/-! ### Ledger monotonicity helpers -/

theorem handleRate_userVotes_mono {s : AppState} {id : Nat} (v : Nat)
    (h : id ∈ s.userVotes) : id ∈ (handleRate s v).userVotes := by
  unfold handleRate
  split
  · exact h
  · split
    · exact h
    · exact List.mem_cons_of_mem v h

theorem handleRateFail_userVotes (s : AppState) (v : Nat) :
    (handleRateFail s v).userVotes = s.userVotes := by
  unfold handleRateFail
  split
  · rfl
  · split <;> rfl

theorem fetchImagesStale_userVotes (t s : AppState) :
    (fetchImagesStale t s).userVotes = s.userVotes := by
  unfold fetchImagesStale
  split
  · rfl
  · split <;> rfl

theorem handleSubmit_userVotes (up : String) (nid nts : Nat) (s : AppState) :
    (handleSubmit up nid nts s).state.userVotes = s.userVotes := by
  unfold handleSubmit
  split
  · rfl
  · show (fetchImagesStale s (submitReset (submitRow up s) nid nts s)).userVotes
        = s.userVotes
    rw [fetchImagesStale_userVotes]
    rfl

theorem applyOp_userVotes_mono (op : Op) {s : AppState} {id : Nat}
    (h : id ∈ s.userVotes) : id ∈ (applyOp op s).userVotes := by
  cases op with
  | fetch => rwa [applyOp, fetchImages_userVotes]
  | fetchFail =>
    show id ∈ (fetchImagesFail s).userVotes
    rw [(fetchImagesFail_frame s).2.2.2.2]
    exact h
  | rate v => exact handleRate_userVotes_mono v h
  | rateFail v =>
    show id ∈ (handleRateFail s v).userVotes
    rwa [handleRateFail_userVotes]
  | submit up nid nts =>
    show id ∈ (handleSubmit up nid nts s).state.userVotes
    rwa [handleSubmit_userVotes]
  | toggleHidden v cur => exact h

/-- C9: the vote ledger is monotone.  Once an id is recorded as voted, no
sequence of core operations (fetches, votes, failing fetches or votes,
submissions, hidden toggles) ever removes it: the set of voted ids only
grows. -/
theorem ledger_monotone (ops : List Op) (s : AppState) (id : Nat)
    (h : id ∈ s.userVotes) : id ∈ (applyOps ops s).userVotes := by
  induction ops generalizing s with
  | nil => exact h
  | cons op ops ih => exact ih (applyOp op s) (applyOp_userVotes_mono op h)

theorem ledger_monotone_witness :
    5 ∈ (applyOps [Op.fetch, Op.rate 5, Op.rateFail 2, Op.toggleHidden 1 false,
        Op.submit "p.png" 9 99, Op.fetchFail]
      { initState exampleDb with userVotes := [5] }).userVotes :=
  ledger_monotone _ _ 5 (by decide)

/-! ### Counter invariant helpers -/

theorem mem_db_of_mem_runQuery {img : Image} {db : List Image} {c : Option Nat}
    (h : img ∈ runQuery db c) : img ∈ db ∧ img.hidden = false := by
  unfold runQuery visibleSorted at h
  have h2 := List.mem_of_mem_filter (List.mem_of_mem_take h)
  have h3 := List.of_mem_filter h2
  have h4 := List.mem_of_mem_filter h2
  exact ⟨(List.mem_insertionSort byNewest).mp h4, by simpa using h3⟩

theorem fetchImages_countsEq {s : AppState} (h : CountsEq s) :
    CountsEq (fetchImages s) := by
  unfold fetchImages
  by_cases hg : (!s.hasMore || s.loading) = true
  · rw [if_pos hg]
    exact h
  · rw [if_neg hg]
    cases hq : runQuery s.db s.lastFetchedAt with
    | nil => exact ⟨h.1, h.2⟩
    | cons d ds =>
      refine ⟨h.1, ?_⟩
      intro img hm
      rcases List.mem_append.mp hm with hm | hm
      · exact h.2 img hm
      · have hr : img ∈ runQuery s.db s.lastFetchedAt := by
          rw [hq]; exact hm
        exact h.1 img (mem_db_of_mem_runQuery hr).1

theorem handleRate_countsEq {s : AppState} (v : Nat) (h : CountsEq s) :
    CountsEq (handleRate s v) := by
  unfold handleRate
  by_cases hm : v ∈ s.userVotes
  · rw [if_pos hm]
    exact h
  · rw [if_neg hm]
    cases hq : s.images.find? (fun img => img.id == v) with
    | none => exact h
    | some image =>
      have himg : image.stars = image.num_votes :=
        h.2 image (List.mem_of_find?_eq_some hq)
      constructor
      · intro img hmem
        rcases List.mem_map.mp hmem with ⟨a, ha, rfl⟩
        by_cases hid : (a.id == v) = true
        · rw [if_pos hid]
          show image.stars + 1 = image.num_votes + 1
          rw [himg]
        · rw [if_neg hid]
          exact h.1 a ha
      · intro img hmem
        rcases List.mem_map.mp hmem with ⟨a, ha, rfl⟩
        by_cases hid : (a.id == v) = true
        · rw [if_pos hid]
          show a.stars + 1 = a.num_votes + 1
          rw [h.2 a ha]
        · rw [if_neg hid]
          exact h.2 a ha

theorem fetchImagesStale_countsEq {t s : AppState} (h : CountsEq s) :
    CountsEq (fetchImagesStale t s) := by
  unfold fetchImagesStale
  by_cases hg : (!t.hasMore || t.loading) = true
  · rw [if_pos hg]
    exact h
  · rw [if_neg hg]
    cases hq : runQuery s.db t.lastFetchedAt with
    | nil => exact ⟨h.1, h.2⟩
    | cons d ds =>
      refine ⟨h.1, ?_⟩
      intro img hm
      rcases List.mem_append.mp hm with hm | hm
      · exact h.2 img hm
      · have hr : img ∈ runQuery s.db t.lastFetchedAt := by
          rw [hq]; exact hm
        exact h.1 img (mem_db_of_mem_runQuery hr).1

theorem handleSubmit_countsEq (up : String) (nid nts : Nat) {s : AppState}
    (h : CountsEq s) : CountsEq (handleSubmit up nid nts s).state := by
  unfold handleSubmit
  split
  · exact h
  · show CountsEq (fetchImagesStale s (submitReset (submitRow up s) nid nts s))
    apply fetchImagesStale_countsEq
    constructor
    · intro img hm
      rcases List.mem_append.mp hm with hm | hm
      · exact h.1 img hm
      · rcases List.mem_singleton.mp hm with rfl
        rfl
    · intro img hm
      exact absurd hm (List.not_mem_nil img)

theorem dbToggleHidden_counts {db : List Image} {v : Nat} {cur : Bool}
    (h : ∀ img ∈ db, img.stars = img.num_votes) :
    ∀ img ∈ dbToggleHidden db v cur, img.stars = img.num_votes := by
  intro img hm
  rcases List.mem_map.mp hm with ⟨a, ha, rfl⟩
  by_cases hid : (a.id == v) = true
  · rw [if_pos hid]
    exact h a ha
  · rw [if_neg hid]
    exact h a ha

theorem applyOp_countsEq (op : Op) {s : AppState} (h : CountsEq s) :
    CountsEq (applyOp op s) := by
  cases op with
  | fetch => exact fetchImages_countsEq h
  | fetchFail =>
    obtain ⟨hi, _, _, hdb, _⟩ := fetchImagesFail_frame s
    exact ⟨hdb ▸ h.1, hi ▸ h.2⟩
  | rate v => exact handleRate_countsEq v h
  | rateFail v =>
    obtain ⟨hi, hdb, _, _⟩ := handleRateFail_frame s v
    exact ⟨hdb ▸ h.1, hi ▸ h.2⟩
  | submit up nid nts => exact handleSubmit_countsEq up nid nts h
  | toggleHidden v cur => exact ⟨dbToggleHidden_counts h.1, h.2⟩

/-- C5: star and vote counts only move together.  A successful vote sets the
target entry's star and vote counts to the known values plus exactly 1 each,
and no core operation mutates one counter without the other: across any
sequence of core operations, every entry of the backend table and of the
in-memory feed keeps star count equal to vote count (entries created by this
core start at 0/0). -/
theorem counts_move_together (ops : List Op) (s : AppState) (h : CountsEq s) :
    CountsEq (applyOps ops s) ∧
    (∀ v image e, v ∉ s.userVotes →
      s.images.find? (fun i => i.id == v) = some image →
      e ∈ (handleRate s v).db → e.id = v →
      e.stars = image.stars + 1 ∧ e.num_votes = image.num_votes + 1) := by
  constructor
  · induction ops generalizing s with
    | nil => exact h
    | cons op ops ih => exact ih (applyOp op s) (applyOp_countsEq op h)
  · intro v image e hm hfind he heid
    unfold handleRate at he
    rw [if_neg hm, hfind] at he
    rcases List.mem_map.mp he with ⟨a, _, rfl⟩
    by_cases hid : (a.id == v) = true
    · rw [if_pos hid]
      exact ⟨rfl, rfl⟩
    · rw [if_neg hid] at heid ⊢
      exact absurd (beq_iff_eq.mpr heid) hid

theorem counts_move_together_witness :
    CountsEq (applyOps [Op.rate 1, Op.fetch, Op.submit "p.png" 9 99] voteState) ∧
      ({ exhibit 1 10 false with stars := 1, num_votes := 1 } : Image).stars
          = (exhibit 1 10 false).stars + 1 :=
  ⟨(counts_move_together [Op.rate 1, Op.fetch, Op.submit "p.png" 9 99] voteState
      ⟨by decide, by decide⟩).1,
   ((counts_move_together [] voteState ⟨by decide, by decide⟩).2 1
      (exhibit 1 10 false) { exhibit 1 10 false with stars := 1, num_votes := 1 }
      (by decide) (by decide) (by decide) rfl).1⟩

/-! ### Moderation gate helpers -/

theorem dbToggleHidden_stripHidden (db : List Image) (v : Nat) (cur : Bool) :
    (dbToggleHidden db v cur).map stripHidden = db.map stripHidden := by
  unfold dbToggleHidden
  rw [List.map_map]
  apply List.map_congr_left
  intro a _
  by_cases hid : (a.id == v) = true
  · simp only [Function.comp_apply, if_pos hid]
    rfl
  · simp only [Function.comp_apply, if_neg hid]

theorem dbToggleHidden_nontarget {db : List Image} {v : Nat} {cur : Bool} {img : Image}
    (h : img ∈ db) (hne : img.id ≠ v) : img ∈ dbToggleHidden db v cur := by
  unfold dbToggleHidden
  exact List.mem_map.mpr ⟨img, h, if_neg (by simpa using hne)⟩

theorem dbToggleHidden_target_hidden {db : List Image} {v : Nat} {img : Image}
    (h : img ∈ dbToggleHidden db v false) (hid : img.id = v) : img.hidden = true := by
  unfold dbToggleHidden at h
  rcases List.mem_map.mp h with ⟨a, _, rfl⟩
  by_cases hb : (a.id == v) = true
  · rw [if_pos hb]
    rfl
  · rw [if_neg hb] at hid
    exact absurd (beq_iff_eq.mpr hid) hb

theorem fetchImages_mem_images {s : AppState} {img : Image}
    (h : img ∈ (fetchImages s).images) :
    img ∈ s.images ∨ (img ∈ s.db ∧ img.hidden = false) := by
  unfold fetchImages at h
  by_cases hg : (!s.hasMore || s.loading) = true
  · rw [if_pos hg] at h
    exact Or.inl h
  · rw [if_neg hg] at h
    cases hq : runQuery s.db s.lastFetchedAt with
    | nil =>
      rw [hq] at h
      exact Or.inl h
    | cons d ds =>
      rw [hq] at h
      simp only [List.mem_append] at h
      rcases h with h | h
      · exact Or.inl h
      · rw [← hq] at h
        exact Or.inr (mem_db_of_mem_runQuery h)

theorem fetchN_db (k : Nat) (s : AppState) : (fetchN k s).db = s.db := by
  induction k with
  | zero => rfl
  | succ k ih => rw [fetchN, fetchImages_db, ih]

theorem fetchN_mem_images {db : List Image} {k : Nat} {img : Image}
    (h : img ∈ (fetchN k (initState db)).images) :
    img ∈ db ∧ img.hidden = false := by
  induction k with
  | zero => exact absurd h (List.not_mem_nil img)
  | succ k ih =>
    rw [fetchN] at h
    rcases fetchImages_mem_images h with h | h
    · exact ih h
    · rwa [fetchN_db] at h

/-- C7: `setHidden(entryId, hidden)` (the admin toggle) changes nothing but
the hidden flag: all other fields of every row, counts included, are
unchanged, and rows with a different id are left entirely untouched; the
target rows of a `setHidden(id, true)` end up hidden; and after
`setHidden(id, true)`, no fresh `loadNextPage()` sequence from a reset
cursor ever includes `id` (the page query filters on `hidden = false`). -/
theorem toggle_hidden_frame_and_exclusion (db : List Image) (v : Nat) (cur : Bool) :
    (dbToggleHidden db v cur).map stripHidden = db.map stripHidden ∧
    (∀ img ∈ db, img.id ≠ v → img ∈ dbToggleHidden db v cur) ∧
    (∀ img ∈ dbToggleHidden db v false, img.id = v → img.hidden = true) ∧
    (∀ k, v ∉ (fetchN k (initState (dbToggleHidden db v false))).images.map Image.id) := by
  refine ⟨dbToggleHidden_stripHidden db v cur,
    fun img h hne => dbToggleHidden_nontarget h hne,
    fun img h hid => dbToggleHidden_target_hidden h hid, ?_⟩
  intro k hk
  rcases List.mem_map.mp hk with ⟨img, hmem, hid⟩
  have h2 := fetchN_mem_images hmem
  have h3 := dbToggleHidden_target_hidden h2.1 hid
  rw [h2.2] at h3
  exact Bool.false_ne_true h3

theorem toggle_hidden_frame_and_exclusion_witness :
    exhibit 1 10 false ∈ dbToggleHidden exampleDb 5 false ∧
      5 ∉ (fetchN 2 (initState (dbToggleHidden exampleDb 5 false))).images.map Image.id :=
  ⟨(toggle_hidden_frame_and_exclusion exampleDb 5 false).2.1 (exhibit 1 10 false)
      (by decide) (by decide),
   (toggle_hidden_frame_and_exclusion exampleDb 5 false).2.2.2 2⟩

/-! ### Pagination helpers -/

theorem strictDesc_pairwise : ∀ {l : List Image}, strictDesc l = true →
    l.Pairwise (fun a b => b.created_at < a.created_at)
  | [], _ => List.Pairwise.nil
  | [_], _ => by simp
  | a :: b :: rest, h => by
    rw [strictDesc, Bool.and_eq_true, decide_eq_true_eq] at h
    have hp := strictDesc_pairwise h.2
    refine List.Pairwise.cons ?_ hp
    intro c hc
    rcases List.mem_cons.mp hc with rfl | hc
    · exact h.1
    · exact ((List.pairwise_cons.mp hp).1 c hc).trans h.1

theorem filter_lt_last {t d : List Image} (hne : t ≠ [])
    (hp : (t ++ d).Pairwise (fun a b => b.created_at < a.created_at)) :
    (t ++ d).filter (fun i => decide (i.created_at < (t.getLast hne).created_at)) = d := by
  obtain ⟨p1, _, hcross⟩ := List.pairwise_append.mp hp
  rw [List.filter_append]
  have h1 : t.filter (fun i => decide (i.created_at < (t.getLast hne).created_at)) = [] := by
    rw [List.filter_eq_nil_iff]
    intro a ha
    simp only [decide_eq_true_eq]
    have hd : t.dropLast ++ [t.getLast hne] = t := List.dropLast_append_getLast hne
    have hp1 : (t.dropLast ++ [t.getLast hne]).Pairwise
        (fun a b => b.created_at < a.created_at) := by
      rw [hd]
      exact p1
    obtain ⟨_, _, hcross2⟩ := List.pairwise_append.mp hp1
    have ha2 : a ∈ t.dropLast ++ [t.getLast hne] := by
      rw [hd]
      exact ha
    rcases List.mem_append.mp ha2 with h | h
    · have := hcross2 a h (t.getLast hne) (List.mem_singleton_self _)
      omega
    · rcases List.mem_singleton.mp h with rfl
      omega
  have h2 : d.filter (fun i => decide (i.created_at < (t.getLast hne).created_at)) = d :=
    List.filter_eq_self.mpr (fun b hb => by
      simp only [decide_eq_true_eq]
      exact hcross (t.getLast hne) (List.getLast_mem hne) b hb)
  rw [h1, h2, List.nil_append]

theorem filter_cursorPred_lastTs {l : List Image}
    (hl : l.Pairwise (fun a b => b.created_at < a.created_at)) (n : Nat) :
    l.filter (cursorPred (lastTs l n)) = l.drop n := by
  cases htake : l.take n with
  | nil =>
    have hnone : lastTs l n = none := by
      rw [lastTs, htake]
      rfl
    rw [hnone]
    rcases List.take_eq_nil_iff.mp htake with hn | hl0
    · subst hn
      rw [List.drop_zero]
      exact List.filter_eq_self.mpr (fun a _ => rfl)
    · subst hl0
      simp
  | cons x xs =>
    have hne : l.take n ≠ [] := by
      rw [htake]
      exact List.cons_ne_nil x xs
    have hlast : lastTs l n = some (((l.take n).getLast hne).created_at) := by
      rw [lastTs, List.getLast?_eq_getLast _ hne]
      rfl
    rw [hlast]
    have hp : (l.take n ++ l.drop n).Pairwise
        (fun a b => b.created_at < a.created_at) := by
      rw [List.take_append_drop]
      exact hl
    have hres := filter_lt_last hne hp
    rw [List.take_append_drop] at hres
    exact hres

theorem runQuery_lastTs {db : List Image}
    (h : (visibleSorted db).Pairwise (fun a b => b.created_at < a.created_at)) (n : Nat) :
    runQuery db (lastTs (visibleSorted db) n) = ((visibleSorted db).drop n).take 5 := by
  unfold runQuery
  rw [filter_cursorPred_lastTs h n]

theorem fetchImages_pagesState {db : List Image}
    (hp : (visibleSorted db).Pairwise (fun a b => b.created_at < a.created_at))
    (n : Nat) :
    fetchImages (pagesState db n true)
      = if (visibleSorted db).length ≤ n then pagesState db n false
        else pagesState db (min (n + 5) (visibleSorted db).length) true := by
  have hq : runQuery (pagesState db n true).db (pagesState db n true).lastFetchedAt
      = ((visibleSorted db).drop n).take 5 := runQuery_lastTs hp n
  unfold fetchImages
  rw [if_neg (by simp [pagesState, initState])]
  rw [hq]
  by_cases hLn : (visibleSorted db).length ≤ n
  · rw [if_pos hLn]
    have hdrop : (visibleSorted db).drop n = [] := List.drop_eq_nil_iff.mpr hLn
    rw [hdrop]
    rfl
  · rw [if_neg hLn]
    have hdropne : ((visibleSorted db).drop n).take 5 ≠ [] := by
      rw [ne_eq, List.take_eq_nil_iff]
      rintro (h | h)
      · exact absurd h (by decide)
      · rw [List.drop_eq_nil_iff] at h
        omega
    obtain ⟨d, ds, hdata⟩ := List.exists_cons_of_ne_nil hdropne
    rw [hdata]
    have himages : (pagesState db n true).images ++ d :: ds
        = (visibleSorted db).take (min (n + 5) (visibleSorted db).length) := by
      show (visibleSorted db).take n ++ d :: ds = _
      rw [← hdata, ← List.take_add]
      exact List.take_eq_take.mpr (by omega)
    have hcursor : ((d :: ds).getLast?).map Image.created_at
        = lastTs (visibleSorted db) (min (n + 5) (visibleSorted db).length) := by
      obtain ⟨y, hy⟩ : ∃ y, (d :: ds).getLast? = some y :=
        ⟨_, List.getLast?_eq_getLast _ (List.cons_ne_nil d ds)⟩
      have h1 : (visibleSorted db).take (min (n + 5) (visibleSorted db).length)
          = (visibleSorted db).take n ++ d :: ds := by
        rw [← hdata, ← List.take_add]
        exact List.take_eq_take.mpr (by omega)
      rw [lastTs, h1, List.getLast?_append, hy, Option.or_some]
    show ({ pagesState db n true with
        images := (pagesState db n true).images ++ d :: ds,
        lastFetchedAt := ((d :: ds).getLast?).map Image.created_at } : AppState)
      = pagesState db (min (n + 5) (visibleSorted db).length) true
    rw [himages, hcursor]
    rfl

theorem fetchN_pagesState {db : List Image}
    (h : (visibleSorted db).Pairwise (fun a b => b.created_at < a.created_at)) (k : Nat) :
    fetchN k (initState db)
      = pagesState db (min (5 * k) (visibleSorted db).length)
          (decide (k = 0) || decide (5 * (k - 1) < (visibleSorted db).length)) := by
  induction k with
  | zero =>
    show initState db = _
    simp [pagesState, lastTs, initState]
  | succ k ih =>
    rw [fetchN, ih]
    by_cases hk : (decide (k = 0)
        || decide (5 * (k - 1) < (visibleSorted db).length)) = true
    · rw [hk, fetchImages_pagesState h]
      by_cases hL : (visibleSorted db).length ≤ min (5 * k) (visibleSorted db).length
      · rw [if_pos hL]
        congr 1
        · omega
        · symm
          rw [Bool.or_eq_false_iff, decide_eq_false_iff_not, decide_eq_false_iff_not]
          simp only [Bool.or_eq_true, decide_eq_true_eq] at hk
          omega
      · rw [if_neg hL]
        congr 1
        · omega
        · symm
          rw [Bool.or_eq_true, decide_eq_true_eq, decide_eq_true_eq]
          omega
    · rw [Bool.not_eq_true] at hk
      rw [hk]
      rw [@fetchImages_guard (pagesState db (min (5 * k) (visibleSorted db).length) false) rfl]
      simp only [Bool.or_eq_false_iff, decide_eq_false_iff_not] at hk
      congr 1
      · omega
      · symm
        rw [Bool.or_eq_false_iff, decide_eq_false_iff_not, decide_eq_false_iff_not]
        omega

/-- C1: with no intervening submission, and with the backend's monotonically
assigned (hence pairwise distinct) creation timestamps, after any number `k`
of `loadNextPage()` calls from a fresh mount the in-memory feed is exactly
the backend's hidden-excluded entries sorted descending by creation time,
truncated to `k` pages of 5 — no duplicates, no gaps; the cursor is
exhausted exactly once a page query has come back empty, and any call after
exhaustion is a no-op.  With 7 visible entries this yields 5 then 2 then 0
entries, exhaustion on the third call, and a fourth call that changes
nothing (instantiated in the witness). -/
theorem pagination_exact (db : List Image)
    (h : strictDesc (visibleSorted db) = true) (k : Nat) :
    (fetchN k (initState db)).images = (visibleSorted db).take (5 * k) ∧
    (fetchN k (initState db)).hasMore
        = (decide (k = 0) || decide (5 * (k - 1) < (visibleSorted db).length)) ∧
    (fetchN k (initState db)).images.Nodup ∧
    ((fetchN k (initState db)).hasMore = false →
      fetchN (k + 1) (initState db) = fetchN k (initState db)) := by
  have hp := strictDesc_pairwise h
  have hinv := fetchN_pagesState hp k
  have himg : (fetchN k (initState db)).images = (visibleSorted db).take (5 * k) := by
    rw [hinv]
    show (visibleSorted db).take (min (5 * k) (visibleSorted db).length) = _
    exact List.take_eq_take.mpr (by omega)
  refine ⟨himg, ?_, ?_, ?_⟩
  · rw [hinv]
    rfl
  · rw [himg]
    have hnd : (visibleSorted db).Nodup :=
      hp.imp (fun hab => by
        intro he
        rw [he] at hab
        omega)
    exact hnd.sublist (List.take_sublist _ _)
  · intro hm
    rw [fetchN, hinv]
    apply fetchImages_guard
    have hflag : (decide (k = 0)
        || decide (5 * (k - 1) < (visibleSorted db).length)) = false := by
      rw [hinv] at hm
      exact hm
    show (!(decide (k = 0) || decide (5 * (k - 1) < (visibleSorted db).length))
        || false) = true
    rw [hflag]
    rfl

theorem pagination_exact_witness :
    strictDesc (visibleSorted exampleDb) = true ∧
      (fetchN 3 (initState exampleDb)).images = (visibleSorted exampleDb).take 15 ∧
      fetchN 4 (initState exampleDb) = fetchN 3 (initState exampleDb) ∧
      (fetchN 1 (initState exampleDb)).images.length = 5 ∧
      (fetchN 1 (initState exampleDb)).hasMore = true ∧
      (fetchN 2 (initState exampleDb)).images.length = 7 ∧
      (fetchN 2 (initState exampleDb)).hasMore = true ∧
      (fetchN 3 (initState exampleDb)).images.length = 7 ∧
      (fetchN 3 (initState exampleDb)).hasMore = false :=
  ⟨by decide,
   (pagination_exact exampleDb (by decide) 3).1,
   (pagination_exact exampleDb (by decide) 3).2.2.2 (by decide),
   by decide, by decide, by decide, by decide, by decide, by decide⟩
